import Mathlib

/-
Verification of the persistent mutation layer and request-dispatch contract
of the MCPToDo server (src/main.py).

The embedding has three layers, each translated from the source:

* a disk layer: the state of the configured todo file together with the
  functions `load_todos` and `save_todos` (src/main.py lines 85-148), where
  the possible I/O failures of each system call made by `save_todos` are
  injected through a `SaveEnv` record and an exception escaping to the
  caller is modelled as `Except.error ()`;
* a typed layer: the todo-item record and the collection operations
  `list_todos`, `add_todo`, `complete_todo`, `delete_todo`
  (src/main.py lines 163-234), which in the source each wrap a
  load - mutate - save cycle; the calls they issue to the store are
  reified as a `StoreOp` trace so that "no save occurs" is expressible;
* the dispatcher `handle_call_tool` (src/main.py lines 302-346).

Nondeterministic inputs of the source (`uuid.uuid4()`, `current_timestamp()`,
the mode bits `mkstemp` gives the temporary file) are passed as parameters.
-/

namespace MCPToDo

/-- A YAML value as returned by the `ruamel.yaml` parser: the document is a
scalar, a sequence or a mapping.  Mappings are kept as association lists in
document order. -/
inductive YVal where
  | null : YVal
  | str (s : String) : YVal
  | int (n : Int) : YVal
  | list (xs : List YVal) : YVal
  | map (kvs : List (String × YVal)) : YVal

/-- Python dict lookup with a default, `kvs.get(k, dflt)`
(src/main.py line 100). -/
def getD (kvs : List (String × YVal)) (k : String) (dflt : YVal) : YVal :=
  match kvs with
  | [] => dflt
  | (k2, v) :: rest => if k2 = k then v else getD rest k dflt

/-- Python `len(v)`: defined on strings, sequences and mappings, raises
`TypeError` on `None` and on numbers (`none` models the raise). -/
def pyLen : YVal → Option Nat
  | .str s => some s.length
  | .list xs => some xs.length
  | .map kvs => some kvs.length
  | .null => none
  | .int _ => none

/-- The parse status of a present todo file: `parsed v` when `yaml.load`
succeeds and returns `v` (`none` for an empty document), `malformed` when
`yaml.load` raises a parse error. -/
inductive FileData where
  | parsed (v : Option YVal) : FileData
  | malformed : FileData

/-- The observable state of the configured todo file: whether its parent
directory exists, the file itself (`none` when absent), its permission
bits, and whether a temporary file from a failed save is left behind. -/
structure Disk where
  parentExists : Bool
  target : Option FileData
  targetMode : Option Nat
  tmpLeft : Bool

/-- The dict `load_todos` builds when the file is absent or empty:
`\x7b"todos": []\x7d` (src/main.py lines 92 and 98). -/
def emptyData : YVal := .map [("todos", .list [])]

/-- `load_todos` (src/main.py lines 85-102).  Absent file: the empty dict.
Otherwise `yaml.load` runs: a parse error propagates; a `None` result
(empty file) gives the empty dict; any other result `data` is returned
unchanged after the logging line evaluates `len(data.get("todos", []))`,
which itself raises when `data` is not a mapping (no `.get` attribute) or
when the `todos` entry has no `len`.  The file is only opened for reading,
so the disk is returned unchanged. -/
def load_todos (d : Disk) : Disk × Except Unit YVal :=
  match d.target with
  | none => (d, .ok emptyData)
  | some .malformed => (d, .error ())
  | some (.parsed none) => (d, .ok emptyData)
  | some (.parsed (some v)) =>
    match v with
    | .map kvs =>
      match pyLen (getD kvs "todos" (.list [])) with
      | some _ => (d, .ok (.map kvs))
      | none => (d, .error ())
    | _ => (d, .error ())

/-- Fault injection for one run of `save_todos`: whether each system call
raises, and the mode bits the temporary file is created with. -/
structure SaveEnv where
  mkdirFail : Bool
  mkstempFail : Bool
  writeFail : Bool
  renameFail : Bool
  chmodFail : Bool
  unlinkFail : Bool
  tmpMode : Nat

/-- The `except` branch of `save_todos` (src/main.py lines 142-147):
`os.unlink(tmp_path)` with its own failure swallowed. -/
def cleanupTmp (e : SaveEnv) (d : Disk) : Disk :=
  if e.unlinkFail then d else { d with tmpLeft := false }

/-- `save_todos` (src/main.py lines 105-148), in the order of the source:
`mkdir(parents=True, exist_ok=True)` on the parent, `mkstemp` in the same
directory, then inside the `try`: dump + flush + fsync to the temporary
file, `os.replace` onto the target (the only step that changes the
target), `os.chmod(TODO_FILE, 0o600)`.  Any exception in the `try` runs
the best-effort unlink and is re-raised; `mkdir` and `mkstemp` failures
occur before the `try` and propagate directly. -/
def save_todos (data : YVal) (e : SaveEnv) (d : Disk) : Disk × Except Unit Unit :=
  if e.mkdirFail then (d, .error ())
  else
    let d1 := { d with parentExists := true }
    if e.mkstempFail then (d1, .error ())
    else
      let d2 := { d1 with tmpLeft := true }
      if e.writeFail then (cleanupTmp e d2, .error ())
      else if e.renameFail then (cleanupTmp e d2, .error ())
      else
        let d3 := { d2 with target := some (.parsed (some data)),
                            targetMode := some e.tmpMode, tmpLeft := false }
        if e.chmodFail then (cleanupTmp e d3, .error ())
        else ({ d3 with targetMode := some 0o600 }, .ok ())

/-- A run of `save_todos` in which no system call fails; `m` is the mode
`mkstemp` happened to give the temporary file. -/
def cleanRun (m : Nat) : SaveEnv :=
  { mkdirFail := false, mkstempFail := false, writeFail := false,
    renameFail := false, chmodFail := false, unlinkFail := false,
    tmpMode := m }

/-- One todo item, the dict built at src/main.py lines 179-185:
keys `id`, `description`, `status`, `created_at`, `completed_at`
(the last one `None` while pending). -/
structure TodoItem where
  id : String
  description : String
  status : String
  created_at : String
  completed_at : Option String
  deriving DecidableEq

/-- Serialization of the optional `completed_at` field: Python `None`
becomes YAML null, a string stays a string. -/
def encodeOptTs : Option String → YVal
  | none => .null
  | some s => .str s

/-- The YAML mapping a todo item is stored as, fields in the order of
src/main.py lines 179-185. -/
def encodeItem (t : TodoItem) : YVal :=
  .map [("id", .str t.id), ("description", .str t.description),
        ("status", .str t.status), ("created_at", .str t.created_at),
        ("completed_at", encodeOptTs t.completed_at)]

/-- The whole persisted document for a collection: one top-level `todos`
key over the item list. -/
def encodeData (todos : List TodoItem) : YVal :=
  .map [("todos", .list (todos.map encodeItem))]

/-- One call a collection operation makes on the durable store: a
`load_todos()` or a `save_todos(data)` with the collection it persists. -/
inductive StoreOp where
  | load : StoreOp
  | save (data : List TodoItem) : StoreOp

/-- The persisted collection after a trace of store calls starting from
`s`: each save replaces it, loads leave it alone. -/
def afterSaves (s : List TodoItem) (ops : List StoreOp) : List TodoItem :=
  ops.foldl (fun acc op => match op with | .load => acc | .save data => data) s

/-- `list_todos` (src/main.py lines 163-169): load and return the
collection unchanged; no save. -/
def list_todos (todos : List TodoItem) : List TodoItem × List StoreOp :=
  (todos, [.load])

/-- `add_todo` (src/main.py lines 172-199) on the loaded collection
`todos`: build the new item from the generated id `newId` and timestamp
`ts`, append it, save, reload once for verification, return the item. -/
def add_todo (description newId ts : String) (todos : List TodoItem) :
    TodoItem × List StoreOp :=
  let new_item : TodoItem :=
    { id := newId, description := description, status := "pending",
      created_at := ts, completed_at := none }
  (new_item, [.load, .save (todos ++ [new_item]), .load])

/-- The `for` loop of `complete_todo` (src/main.py lines 206-212): scan
for the first item whose id matches, update it in place, stop there.
Returns the collection after the loop and the updated item if any. -/
def completeScan (id ts : String) : List TodoItem → List TodoItem × Option TodoItem
  | [] => ([], none)
  | item :: rest =>
    if item.id = id then
      let updated := { item with status := "done", completed_at := some ts }
      (updated :: rest, some updated)
    else
      let (rest2, r) := completeScan id ts rest
      (item :: rest2, r)

/-- `complete_todo` (src/main.py lines 202-214) on the loaded collection:
if the scan found a match, save the whole collection and return the
updated item; otherwise return `None` without saving. -/
def complete_todo (id ts : String) (todos : List TodoItem) :
    Option TodoItem × List StoreOp :=
  match completeScan id ts todos with
  | (todos2, some item) => (some item, [.load, .save todos2])
  | (_, none) => (none, [.load])

/-- `delete_todo` (src/main.py lines 217-234) on the loaded collection:
filter out every item with the matching id; save and return `True` only
when the length decreased. -/
def delete_todo (id : String) (todos : List TodoItem) : Bool × List StoreOp :=
  let filtered := todos.filter (fun t => t.id != id)
  if filtered.length < todos.length then (true, [.load, .save filtered])
  else (false, [.load])

/-- One `TextContent` response of the dispatcher: either
`json.dumps(result, indent=2)` of a structured result, modelled at the
value level, or a literal text. -/
inductive Response where
  | json (v : YVal) : Response
  | text (s : String) : Response

/-- Python truthiness test `not x` on `arguments.get(key)`: true when the
key is missing (`None`) or its value is the empty string. -/
def falsy : Option String → Bool
  | none => true
  | some s => s.isEmpty

/-- `handle_call_tool` (src/main.py lines 302-346): dispatch on the tool
name; for `add_todo`, `complete_todo` and `delete_todo` first check the
required argument with Python truthiness and answer a textual error
without touching the store when it fails; otherwise run the operation on
the loaded collection `todos` and translate its result.  Returns the
response, the resulting persisted collection and the trace of store
calls made. -/
def handle_call_tool (name : String) (arguments : String → Option String)
    (newId ts : String) (todos : List TodoItem) :
    Response × List TodoItem × List StoreOp :=
  if name = "list_todos" then
    let (result, ops) := list_todos todos
    (.json (.list (result.map encodeItem)), afterSaves todos ops, ops)
  else if name = "add_todo" then
    let description := arguments "description"
    if falsy description then
      (.text "Error: description parameter is required", todos, [])
    else
      let (item, ops) := add_todo (description.getD "") newId ts todos
      (.json (encodeItem item), afterSaves todos ops, ops)
  else if name = "complete_todo" then
    let todo_id := arguments "id"
    if falsy todo_id then
      (.text "Error: id parameter is required", todos, [])
    else
      match complete_todo (todo_id.getD "") ts todos with
      | (some item, ops) => (.json (encodeItem item), afterSaves todos ops, ops)
      | (none, ops) =>
        (.text ("Error: Todo with ID \x27" ++ todo_id.getD "" ++ "\x27 not found"),
         afterSaves todos ops, ops)
  else if name = "delete_todo" then
    let todo_id := arguments "id"
    if falsy todo_id then
      (.text "Error: id parameter is required", todos, [])
    else
      match delete_todo (todo_id.getD "") todos with
      | (true, ops) =>
        (.text ("Todo with ID \x27" ++ todo_id.getD "" ++ "\x27 deleted successfully"),
         afterSaves todos ops, ops)
      | (false, ops) =>
        (.text ("Error: Todo with ID \x27" ++ todo_id.getD "" ++ "\x27 not found"),
         afterSaves todos ops, ops)
  else if name = "get_timestamp" then
    (.text ts, todos, [])
  else
    (.text ("Error: Unknown tool \x27" ++ name ++ "\x27"), todos, [])

/-- The data-model invariant of §3 of the design: `completed_at` is set
exactly on the done items. -/
def WF (todos : List TodoItem) : Prop :=
  ∀ t ∈ todos, (t.completed_at ≠ none ↔ t.status = "done")

/-- Store states reachable from the empty collection through the three
mutating operations, each step persisting what the operation saved (or
keeping the state when the operation saved nothing). -/
inductive Reachable : List TodoItem → Prop where
  | start : Reachable []
  | add (desc newId ts : String) {s : List TodoItem} :
      Reachable s → Reachable (afterSaves s (add_todo desc newId ts s).2)
  | complete (id ts : String) {s : List TodoItem} :
      Reachable s → Reachable (afterSaves s (complete_todo id ts s).2)
  | delete (id : String) {s : List TodoItem} :
      Reachable s → Reachable (afterSaves s (delete_todo id s).2)

/-- Lookup with default on the keys of a mapping that does not contain the
key: the default comes back. -/
theorem getD_of_absent (kvs : List (String × YVal)) (k : String) (dflt : YVal)
    (h : ∀ p ∈ kvs, p.1 ≠ k) : getD kvs k dflt = dflt := by
  induction kvs with
  | nil => rfl
  | cons p rest ih =>
    obtain ⟨k2, v⟩ := p
    have hk : k2 ≠ k := h (k2, v) (List.mem_cons_self _ _)
    simpa [getD, hk] using ih fun q hq => h q (List.mem_cons_of_mem _ hq)

/-- A present todo file whose content `yaml.load` cannot parse. -/
def corruptDisk : Disk :=
  { parentExists := true, target := some .malformed,
    targetMode := some 0o600, tmpLeft := false }

/-- C1, counterexample: on a present but unparseable file, `load_todos`
raises to the caller (`yaml.load` at src/main.py line 95 is not guarded),
instead of returning the empty collection as the claim states. -/
theorem C1_counterexample :
    (load_todos corruptDisk).2 = Except.error () ∧
      (load_todos corruptDisk).2 ≠ Except.ok emptyData :=
  ⟨rfl, fun h => Except.noConfusion h⟩

/-- C1, amended: `load_todos` returns the empty collection, without
raising and with the disk untouched, when the file is absent or present
but empty; a parse failure on unparseable content propagates to the
caller; content that parses to a mapping without a `todos` key is
returned unchanged, not replaced by the empty collection. -/
theorem C1_load_degenerate (d : Disk) :
    (d.target = none → load_todos d = (d, Except.ok emptyData)) ∧
    (d.target = some (.parsed none) → load_todos d = (d, Except.ok emptyData)) ∧
    (d.target = some .malformed → load_todos d = (d, Except.error ())) ∧
    (∀ kvs, d.target = some (.parsed (some (.map kvs))) →
      (∀ p ∈ kvs, p.1 ≠ "todos") →
      load_todos d = (d, Except.ok (.map kvs))) := by
  refine ⟨fun h => ?_, fun h => ?_, fun h => ?_, fun kvs h habs => ?_⟩
  · simp [load_todos, h]
  · simp [load_todos, h]
  · simp [load_todos, h]
  · simp [load_todos, h, getD_of_absent kvs "todos" _ habs, pyLen]

/-- An existing file that parses to a mapping with no `todos` key. -/
def noKeyDisk : Disk :=
  { parentExists := true,
    target := some (.parsed (some (.map [("other", .null)]))),
    targetMode := some 0o600, tmpLeft := false }

/-- C1 witness: the amended statement evaluated on a concrete mapping
without a `todos` key. -/
theorem C1_load_degenerate_witness :
    load_todos noKeyDisk = (noKeyDisk, Except.ok (.map [("other", .null)])) :=
  (C1_load_degenerate noKeyDisk).2.2.2 [("other", .null)] rfl (by decide)

/-- C9: whenever `save_todos` returns success, the target file carries
mode `0o600`, whatever mode it had before and whatever mode `mkstemp`
gave the temporary file: the `os.chmod` at src/main.py line 131 runs
after every successful rename. -/
theorem C9_save_permissions (data : YVal) (e : SaveEnv) (d : Disk)
    (h : (save_todos data e d).2 = Except.ok ()) :
    (save_todos data e d).1.targetMode = some 0o600 := by
  cases hm : e.mkdirFail <;> cases hs : e.mkstempFail <;>
    cases hw : e.writeFail <;> cases hr : e.renameFail <;>
    cases hc : e.chmodFail <;>
    simp_all [save_todos, cleanupTmp]

/-- A disk with no file, no parent directory, no leftover temporary. -/
def blankDisk : Disk :=
  { parentExists := false, target := none, targetMode := none, tmpLeft := false }

/-- C9 witness: a concrete fault-free save, where `mkstemp` gave the
temporary file the laxer mode `0o644`, ends with mode `0o600`. -/
theorem C9_save_permissions_witness :
    (save_todos emptyData (cleanRun 0o644) blankDisk).1.targetMode = some 0o600 :=
  C9_save_permissions emptyData (cleanRun 0o644) blankDisk rfl

/-- C10: a fault-free `save_todos` succeeds from every disk state, in
particular when the parent directory of the target is missing: the
`mkdir(parents=True, exist_ok=True)` at src/main.py line 112 creates it
(and tolerates it already existing) before the write, and the document
lands on disk. -/
theorem C10_save_creates_parent (data : YVal) (d : Disk) (m : Nat) :
    (save_todos data (cleanRun m) d).2 = Except.ok () ∧
    (save_todos data (cleanRun m) d).1.parentExists = true ∧
    (save_todos data (cleanRun m) d).1.target = some (.parsed (some data)) := by
  refine ⟨rfl, rfl, rfl⟩

/-- C2: when the dump/flush/fsync step or the rename step of `save_todos`
fails, the call reports the failure (`raise` at src/main.py line 148),
the target document and its mode are exactly as before the call, and the
temporary file is gone whenever its unlink succeeded — while a failing
unlink still leaves the original failure as the reported outcome. -/
theorem C2_save_write_failure (data : YVal) (e : SaveEnv) (d : Disk)
    (hmkdir : e.mkdirFail = false) (hmkstemp : e.mkstempFail = false)
    (hfail : e.writeFail = true ∨ e.renameFail = true) :
    (save_todos data e d).2 = Except.error () ∧
    (save_todos data e d).1.target = d.target ∧
    (save_todos data e d).1.targetMode = d.targetMode ∧
    (e.unlinkFail = false → (save_todos data e d).1.tmpLeft = false) := by
  cases hw : e.writeFail <;> cases hr : e.renameFail <;>
    cases hu : e.unlinkFail <;> simp_all [save_todos, cleanupTmp]

/-- A save run whose write step fails and whose cleanup succeeds. -/
def writeFailEnv : SaveEnv :=
  { mkdirFail := false, mkstempFail := false, writeFail := true,
    renameFail := false, chmodFail := false, unlinkFail := false,
    tmpMode := 0o644 }

/-- A disk already holding a saved document. -/
def savedDisk : Disk :=
  { parentExists := true, target := some (.parsed (some emptyData)),
    targetMode := some 0o600, tmpLeft := false }

/-- C2 witness: a concrete failing write leaves the concrete document in
place, reports the error, and the temporary file is cleaned up. -/
theorem C2_save_write_failure_witness :
    (save_todos emptyData writeFailEnv savedDisk).2 = Except.error () ∧
    (save_todos emptyData writeFailEnv savedDisk).1.target = savedDisk.target ∧
    (save_todos emptyData writeFailEnv savedDisk).1.targetMode = savedDisk.targetMode ∧
    (writeFailEnv.unlinkFail = false →
      (save_todos emptyData writeFailEnv savedDisk).1.tmpLeft = false) :=
  C2_save_write_failure emptyData writeFailEnv savedDisk rfl rfl (Or.inl rfl)

/-- The serialization of `completed_at` is injective. -/
theorem encodeOptTs_inj {a b : Option String} (h : encodeOptTs a = encodeOptTs b) :
    a = b := by
  cases a <;> cases b <;> simp_all [encodeOptTs]

/-- The serialization of one todo item is injective: equal mappings force
equal fields. -/
theorem encodeItem_inj {a b : TodoItem} (h : encodeItem a = encodeItem b) :
    a = b := by
  obtain ⟨ai, ad, as, ac, aco⟩ := a
  obtain ⟨bi, bd, bs, bc, bco⟩ := b
  simp only [encodeItem, YVal.map.injEq, List.cons.injEq, Prod.mk.injEq,
    YVal.str.injEq, true_and, and_true] at h
  obtain ⟨h1, h2, h3, h4, h5⟩ := h
  cases encodeOptTs_inj h5
  simp_all

/-- The serialization of a whole collection is injective. -/
theorem encodeData_inj {a b : List TodoItem} (h : encodeData a = encodeData b) :
    a = b := by
  simp only [encodeData, YVal.map.injEq, List.cons.injEq, Prod.mk.injEq,
    YVal.list.injEq, true_and, and_true] at h
  exact List.map_injective_iff.mpr (fun x y hxy => encodeItem_inj hxy) h

/-- C3: a fault-free `save_todos` of any collection followed by
`load_todos` succeeds and returns exactly the document that was saved,
and the serialization is injective, so the collection is recovered
field-for-field in the same order. -/
theorem C3_save_load_roundtrip (C : List TodoItem) (d : Disk) (m : Nat) :
    (save_todos (encodeData C) (cleanRun m) d).2 = Except.ok () ∧
    (load_todos (save_todos (encodeData C) (cleanRun m) d).1).2 =
      Except.ok (encodeData C) ∧
    ∀ C2 : List TodoItem, encodeData C2 = encodeData C → C2 = C := by
  refine ⟨rfl, ?_, fun C2 h => encodeData_inj h⟩
  simp [save_todos, cleanRun, load_todos, encodeData, getD, pyLen]

/-- A concrete pending item. -/
def milkItem : TodoItem :=
  { id := "a1", description := "Buy milk", status := "pending",
    created_at := "2025-01-01T09:00:00", completed_at := none }

/-- C3 witness: the round trip evaluated on a concrete one-item
collection over a blank disk. -/
theorem C3_save_load_roundtrip_witness :
    (save_todos (encodeData [milkItem]) (cleanRun 0o600) blankDisk).2 = Except.ok () ∧
    (load_todos (save_todos (encodeData [milkItem]) (cleanRun 0o600) blankDisk).1).2 =
      Except.ok (encodeData [milkItem]) ∧
    ∀ C2 : List TodoItem, encodeData C2 = encodeData [milkItem] → C2 = [milkItem] :=
  C3_save_load_roundtrip [milkItem] blankDisk 0o600

/-- C4: on a non-empty description and a generated id not yet in the
store (the contract of `uuid.uuid4()`), `add_todo` returns the freshly
built item — pending, timestamped, no completion time — and its one save
persists exactly the loaded collection with that item appended, every
prior item staying at its position. -/
theorem C4_add_todo_spec (desc newId ts : String) (todos : List TodoItem)
    (hdesc : desc ≠ "") (hfresh : ∀ t ∈ todos, t.id ≠ newId) :
    ∃ item : TodoItem,
      add_todo desc newId ts todos =
        (item, [.load, .save (todos ++ [item]), .load]) ∧
      item.id = newId ∧ item.description = desc ∧ item.status = "pending" ∧
      item.created_at = ts ∧ item.completed_at = none ∧
      (∀ t ∈ todos, t.id ≠ item.id) ∧
      (todos ++ [item]).length = todos.length + 1 ∧
      (∀ i, i < todos.length → (todos ++ [item])[i]? = todos[i]?) := by
  refine ⟨⟨newId, desc, "pending", ts, none⟩, rfl, rfl, rfl, rfl, rfl, rfl,
    hfresh, by simp, fun i hi => ?_⟩
  rw [List.getElem?_append, if_pos hi]

/-- C4 witness: adding a concrete item to the singleton store holding
`milkItem`. -/
theorem C4_add_todo_spec_witness :
    ∃ item : TodoItem,
      add_todo "Walk dog" "b2" "2025-01-01T09:05:00" [milkItem] =
        (item, [.load, .save ([milkItem] ++ [item]), .load]) ∧
      item.id = "b2" ∧ item.description = "Walk dog" ∧ item.status = "pending" ∧
      item.created_at = "2025-01-01T09:05:00" ∧ item.completed_at = none ∧
      (∀ t ∈ [milkItem], t.id ≠ item.id) ∧
      ([milkItem] ++ [item]).length = [milkItem].length + 1 ∧
      (∀ i, i < [milkItem].length → ([milkItem] ++ [item])[i]? = [milkItem][i]?) :=
  C4_add_todo_spec "Walk dog" "b2" "2025-01-01T09:05:00" [milkItem]
    (by decide) (by decide)

/-- When no item of the collection matches the id, the scan loop of
`complete_todo` changes nothing and finds nothing. -/
theorem completeScan_not_found (id ts : String) (todos : List TodoItem)
    (h : ∀ t ∈ todos, t.id ≠ id) : completeScan id ts todos = (todos, none) := by
  induction todos with
  | nil => rfl
  | cons item rest ih =>
    have hid : item.id ≠ id := h item (List.mem_cons_self _ _)
    simp [completeScan, hid, ih fun t ht => h t (List.mem_cons_of_mem _ ht)]

/-- When the collection splits as `pre ++ x :: post` with no match in
`pre` and `x` matching, the scan loop of `complete_todo` updates exactly
`x` in place and reports the updated item. -/
theorem completeScan_found (id ts : String) (pre : List TodoItem) (x : TodoItem)
    (post : List TodoItem) (hx : x.id = id) (hpre : ∀ t ∈ pre, t.id ≠ id) :
    completeScan id ts (pre ++ x :: post) =
      (pre ++ { x with status := "done", completed_at := some ts } :: post,
       some { x with status := "done", completed_at := some ts }) := by
  induction pre with
  | nil => simp [completeScan, hx]
  | cons p rest ih =>
    have hp : p.id ≠ id := hpre p (List.mem_cons_self _ _)
    simp [completeScan, hp, ih fun t ht => hpre t (List.mem_cons_of_mem _ ht)]

/-- C5: `complete_todo` on a collection with no matching id performs no
save and returns the Not-Found outcome `none`; on a collection whose
first match is `x`, it sets that item to done with the given completion
time, saves the whole collection with only that item changed, and
returns the updated item. -/
theorem C5_complete_todo_spec (id ts : String) :
    (∀ todos : List TodoItem, (∀ t ∈ todos, t.id ≠ id) →
      complete_todo id ts todos = (none, [.load])) ∧
    (∀ (pre : List TodoItem) (x : TodoItem) (post : List TodoItem),
      x.id = id → (∀ t ∈ pre, t.id ≠ id) →
      complete_todo id ts (pre ++ x :: post) =
        (some { x with status := "done", completed_at := some ts },
         [.load,
          .save (pre ++ { x with status := "done", completed_at := some ts } :: post)])) := by
  constructor
  · intro todos h
    simp [complete_todo, completeScan_not_found id ts todos h]
  · intro pre x post hx hpre
    simp [complete_todo, completeScan_found id ts pre x post hx hpre]

/-- The item `milkItem` after completion at a concrete time. -/
def milkDone : TodoItem :=
  { milkItem with status := "done", completed_at := some "2025-01-02T10:00:00" }

/-- C5 witness: completing the only item of a concrete collection. -/
theorem C5_complete_todo_spec_witness :
    complete_todo "a1" "2025-01-02T10:00:00" ([] ++ milkItem :: []) =
      (some milkDone, [.load, .save ([] ++ milkDone :: [])]) :=
  (C5_complete_todo_spec "a1" "2025-01-02T10:00:00").2 [] milkItem []
    rfl (by simp)

/-- C6: `delete_todo` saves the filtered collection and reports success
exactly when some item matched; with no match it performs no save and
reports failure; the filtered collection is a sublist of the original
(relative order preserved) holding exactly the non-matching items, so
duplicate matches would all be removed. -/
theorem C6_delete_todo_spec (id : String) (todos : List TodoItem) :
    ((∃ t ∈ todos, t.id = id) →
      delete_todo id todos =
        (true, [.load, .save (todos.filter (fun t => t.id != id))])) ∧
    ((∀ t ∈ todos, t.id ≠ id) → delete_todo id todos = (false, [.load])) ∧
    (todos.filter (fun t => t.id != id)).Sublist todos ∧
    (∀ t : TodoItem,
      t ∈ todos.filter (fun t => t.id != id) ↔ t ∈ todos ∧ t.id ≠ id) := by
  refine ⟨fun h => ?_, fun h => ?_, List.filter_sublist _, fun t => ?_⟩
  · obtain ⟨t, ht, hid⟩ := h
    have hlt : (todos.filter (fun t => t.id != id)).length < todos.length :=
      List.length_filter_lt_length_iff_exists.mpr ⟨t, ht, by simp [hid]⟩
    simp [delete_todo, hlt]
  · have heq : todos.filter (fun t => t.id != id) = todos :=
      List.filter_eq_self.mpr fun t ht => by simp [h t ht]
    simp [delete_todo, heq]
  · simp [List.mem_filter]

/-- C6 witness: the success branch of a concrete run, saving the
filtered collection. -/
theorem C6_delete_todo_spec_witness :
    delete_todo "a1" [milkItem] =
      (true, [.load, .save ([milkItem].filter (fun t => t.id != "a1"))]) :=
  (C6_delete_todo_spec "a1" [milkItem]).1 ⟨milkItem, by simp, rfl⟩

/-- Unfolding of the scan loop at a matching head. -/
theorem completeScan_cons_match (id ts : String) (item : TodoItem)
    (rest : List TodoItem) (hid : item.id = id) :
    completeScan id ts (item :: rest) =
      ({ item with status := "done", completed_at := some ts } :: rest,
       some { item with status := "done", completed_at := some ts }) := by
  simp [completeScan, hid]

/-- Unfolding of the scan loop at a non-matching head. -/
theorem completeScan_cons_nomatch (id ts : String) (item : TodoItem)
    (rest : List TodoItem) (hid : ¬ item.id = id) :
    completeScan id ts (item :: rest) =
      (item :: (completeScan id ts rest).1, (completeScan id ts rest).2) := by
  rcases hs : completeScan id ts rest with ⟨a, b⟩
  simp [completeScan, hid, hs]

/-- Every item of the collection after the scan loop of `complete_todo`
is either an original item or an original item with status set to done
and the completion time set. -/
theorem completeScan_mem (id ts : String) (s : List TodoItem) (t : TodoItem)
    (ht : t ∈ (completeScan id ts s).1) :
    t ∈ s ∨ ∃ x ∈ s, t = { x with status := "done", completed_at := some ts } := by
  induction s with
  | nil => simp [completeScan] at ht
  | cons item rest ih =>
    by_cases hid : item.id = id
    · rw [completeScan_cons_match id ts item rest hid] at ht
      rcases List.mem_cons.mp ht with h1 | h2
      · exact Or.inr ⟨item, List.mem_cons_self _ _, h1⟩
      · exact Or.inl (List.mem_cons_of_mem _ h2)
    · rw [completeScan_cons_nomatch id ts item rest hid] at ht
      rcases List.mem_cons.mp ht with h1 | h2
      · exact Or.inl (by simp [h1])
      · rcases ih h2 with h3 | ⟨x, hx, hxe⟩
        · exact Or.inl (List.mem_cons_of_mem _ h3)
        · exact Or.inr ⟨x, List.mem_cons_of_mem _ hx, hxe⟩

/-- Position by position, the scan loop of `complete_todo` either keeps
the original item or replaces it with its done version: a completion
time already present is never cleared. -/
theorem completeScan_get (id ts : String) (s : List TodoItem) (i : Nat) :
    ((completeScan id ts s).1)[i]? = s[i]? ∨
    ∃ x, s[i]? = some x ∧
      ((completeScan id ts s).1)[i]? =
        some { x with status := "done", completed_at := some ts } := by
  induction s generalizing i with
  | nil => exact Or.inl rfl
  | cons item rest ih =>
    by_cases hid : item.id = id
    · cases i with
      | zero =>
        exact Or.inr ⟨item, by simp, by rw [completeScan_cons_match id ts item rest hid]; simp⟩
      | succ n => left; rw [completeScan_cons_match id ts item rest hid]; simp
    · cases i with
      | zero => left; rw [completeScan_cons_nomatch id ts item rest hid]; simp
      | succ n =>
        rcases ih n with h | ⟨x, hx, hx2⟩
        · left; rw [completeScan_cons_nomatch id ts item rest hid]; simpa using h
        · right
          refine ⟨x, by simpa using hx, ?_⟩
          rw [completeScan_cons_nomatch id ts item rest hid]
          simpa using hx2

/-- The scan loop finds an item whenever some item of the collection
matches the id, whatever its current status. -/
theorem completeScan_found_isSome (id ts : String) (s : List TodoItem)
    (h : ∃ t ∈ s, t.id = id) : ((completeScan id ts s).2).isSome = true := by
  induction s with
  | nil => simp at h
  | cons item rest ih =>
    by_cases hid : item.id = id
    · simp [completeScan, hid]
    · rcases h with ⟨t, ht, htid⟩
      rcases List.mem_cons.mp ht with rfl | ht2
      · exact absurd htid hid
      · simpa [completeScan, hid] using ih ⟨t, ht2, htid⟩

/-- `complete_todo` reports success whenever some item matches the id,
in particular on an item that is already done. -/
theorem complete_todo_isSome (id ts : String) (s : List TodoItem)
    (h : ∃ t ∈ s, t.id = id) : ((complete_todo id ts s).1).isSome = true := by
  have hscan := completeScan_found_isSome id ts s h
  rcases hs : completeScan id ts s with ⟨l, r⟩
  cases r with
  | some item => simp [complete_todo, hs]
  | none => rw [hs] at hscan; simp at hscan

/-- The state persisted by `complete_todo` is the scanned collection when
a save happened, the untouched input otherwise. -/
theorem afterSaves_complete (id ts : String) (s : List TodoItem) :
    afterSaves s (complete_todo id ts s).2 = (completeScan id ts s).1 ∨
    afterSaves s (complete_todo id ts s).2 = s := by
  rcases hs : completeScan id ts s with ⟨l, r⟩
  cases r with
  | some item => left; simp [complete_todo, hs, afterSaves]
  | none => right; simp [complete_todo, hs, afterSaves]

/-- The state persisted by `delete_todo` is the filtered collection when
a save happened, the untouched input otherwise. -/
theorem afterSaves_delete (id : String) (s : List TodoItem) :
    afterSaves s (delete_todo id s).2 = s.filter (fun t => t.id != id) ∨
    afterSaves s (delete_todo id s).2 = s := by
  by_cases hl : (s.filter (fun t => t.id != id)).length < s.length
  · left; simp [delete_todo, hl, afterSaves]
  · right; simp [delete_todo, hl, afterSaves]

/-- The scan loop preserves the completed-at/status invariant. -/
theorem WF_completeScan (id ts : String) (s : List TodoItem) (h : WF s) :
    WF (completeScan id ts s).1 := by
  intro t ht
  rcases completeScan_mem id ts s t ht with h1 | ⟨x, _, rfl⟩
  · exact h t h1
  · exact ⟨fun _ => rfl, fun _ => by simp⟩

/-- Every store state reachable through the three mutating operations
satisfies the completed-at/status invariant. -/
theorem Reachable_WF (s : List TodoItem) (h : Reachable s) : WF s := by
  induction h with
  | start => intro t ht; exact absurd ht (List.not_mem_nil t)
  | add desc newId ts _ ih =>
    intro t ht
    rcases List.mem_append.mp ht with h1 | h2
    · exact ih t h1
    · rcases List.mem_singleton.mp h2 with rfl
      exact ⟨fun hc => absurd rfl hc, fun hs => by simp at hs⟩
  | complete id ts _ ih =>
    rcases afterSaves_complete id ts _ with heq | heq <;> rw [heq]
    · exact WF_completeScan id ts _ ih
    · exact ih
  | delete id _ ih =>
    rcases afterSaves_delete id _ with heq | heq <;> rw [heq]
    · exact fun t ht => ih t (List.mem_filter.mp ht).1
    · exact ih

/-- C7: every reachable store state has `completed_at` set exactly on the
done items, each operation preserving the invariant; `complete_todo`
reports success for any matching item, already done or not; and the scan
loop never clears a completion time that was already set. -/
theorem C7_completed_at_invariant :
    (∀ s : List TodoItem, Reachable s → WF s) ∧
    (∀ (id ts : String) (s : List TodoItem), (∃ t ∈ s, t.id = id) →
      ((complete_todo id ts s).1).isSome = true) ∧
    (∀ (id ts : String) (s : List TodoItem) (i : Nat) (t t2 : TodoItem),
      s[i]? = some t →
      ((completeScan id ts s).1)[i]? = some t2 →
      t.completed_at ≠ none → t2.completed_at ≠ none) := by
  refine ⟨Reachable_WF, complete_todo_isSome, ?_⟩
  intro id ts s i t t2 h1 h2 hset
  rcases completeScan_get id ts s i with heq | ⟨x, hx, hx2⟩
  · rw [heq, h1] at h2
    injection h2 with h3
    rwa [← h3]
  · rw [h1] at hx
    injection hx with h4
    rw [hx2] at h2
    injection h2 with h5
    rw [← h5]
    simp

/-- C7 witness: completing an already-done concrete item still reports
success. -/
theorem C7_completed_at_invariant_witness :
    ((complete_todo "a1" "2025-01-03T08:00:00" [milkDone]).1).isSome = true :=
  C7_completed_at_invariant.2.1 "a1" "2025-01-03T08:00:00" [milkDone]
    ⟨milkDone, by simp, rfl⟩

/-- C10 witness: a concrete save over a disk whose parent directory is
missing succeeds and creates the directory. -/
theorem C10_save_creates_parent_witness :
    (save_todos emptyData (cleanRun 0o600) blankDisk).2 = Except.ok () ∧
    (save_todos emptyData (cleanRun 0o600) blankDisk).1.parentExists = true ∧
    (save_todos emptyData (cleanRun 0o600) blankDisk).1.target =
      some (.parsed (some emptyData)) :=
  C10_save_creates_parent emptyData blankDisk 0o600

/-- C8: a name outside the five-tool catalog is answered by a textual
error naming it, with no store access and no state change; each
mutating tool invoked with its required argument missing or empty (the
Python truthiness test at src/main.py lines 313, 323 and 332) is
answered by a textual error naming the parameter, again with an empty
store trace: the collection operation never runs. -/
theorem C8_dispatch_errors (name : String) (arguments : String → Option String)
    (newId ts : String) (todos : List TodoItem) :
    (name ∉ (["list_todos", "add_todo", "complete_todo", "delete_todo",
        "get_timestamp"] : List String) →
      handle_call_tool name arguments newId ts todos =
        (.text ("Error: Unknown tool \x27" ++ name ++ "\x27"), todos, [])) ∧
    (falsy (arguments "description") = true →
      handle_call_tool "add_todo" arguments newId ts todos =
        (.text "Error: description parameter is required", todos, [])) ∧
    (falsy (arguments "id") = true →
      handle_call_tool "complete_todo" arguments newId ts todos =
        (.text "Error: id parameter is required", todos, [])) ∧
    (falsy (arguments "id") = true →
      handle_call_tool "delete_todo" arguments newId ts todos =
        (.text "Error: id parameter is required", todos, [])) := by
  refine ⟨fun h => ?_, fun h => ?_, fun h => ?_, fun h => ?_⟩
  · simp only [List.mem_cons, List.not_mem_nil, or_false, not_or] at h
    obtain ⟨h1, h2, h3, h4, h5⟩ := h
    simp [handle_call_tool, h1, h2, h3, h4, h5]
  · simp [handle_call_tool, h]
  · simp [handle_call_tool, h]
  · simp [handle_call_tool, h]

/-- C8 witness: a concrete unknown tool name with no arguments is
rejected with the expected text and an empty store trace. -/
theorem C8_dispatch_errors_witness :
    handle_call_tool "rename_todo" (fun _ => none) "b2" "2025-01-01T09:05:00"
        [milkItem] =
      (.text "Error: Unknown tool \x27rename_todo\x27", [milkItem], []) :=
  (C8_dispatch_errors "rename_todo" (fun _ => none) "b2" "2025-01-01T09:05:00"
    [milkItem]).1 (by decide)

end MCPToDo
